import Mathlib

/-!
Verification development for the modern-extend capability framework
(src/lib/modernExtend.ts): a shallow embedding of the generic capability
builders (numeric, reporting-time resolution, reporting configurator) and
the composite extensions (electricity meter, battery, IAS security zone),
together with theorems settling the frozen specification claims.

Conventions of the embedding:
* machine numbers are modelled as `Nat` / `Int` / `Rat` (JavaScript numbers
  on the code paths treated here are exact: small integers and decimal
  fractions well within 2^53, so rational arithmetic is faithful);
* JavaScript objects built by the decoders are modelled either as explicit
  structures with `Option` fields (absent key = `none`) or as ordered
  key/value lists with last-binding-wins lookup;
* fallible build steps (`throw new Error`) return `Except String _`;
* asynchronous protocol I/O never happens inside a builder: a builder is a
  pure function producing data, and the `configure` closures are modelled
  as the data they capture, so an error raised by a builder is raised
  before any bind/read/write/subscribe could run.
-/

namespace ModernExtend

/-- JavaScript `Math.round` on rationals: rounds half toward positive infinity. -/
def jsRound (q : ℚ) : ℤ := ⌊q + 1/2⌋

/-- Modelled from the spec: `utils.precisionRound` (utils.ts is outside src/),
"An optional precision step rounds to N digits, round-half-up":
`Math.round(number * 10^precision) / 10^precision`. -/
def precisionRound (q : ℚ) (p : ℕ) : ℚ := (jsRound (q * 10 ^ p) : ℚ) / 10 ^ p

/-- Modelled from the spec: the access-mode bitmask of a capability descriptor
(readable / writable / subscribable); `exposes.ts` is outside src/. Bit values:
STATE = 1 (subscribable state), SET = 2 (writable), GET = 4 (readable). -/
def eaSTATE : ℕ := 1

/-- Modelled from the spec: the writable bit of the access bitmask. -/
def eaSET : ℕ := 2

/-- Modelled from the spec: the readable (individually-readable) bit of the
access bitmask; `access & ea.GET` guards every get-path in modernExtend.ts. -/
def eaGET : ℕ := 4

/-- Modelled from the spec: access mode STATE_GET = STATE | GET. -/
def eaSTATE_GET : ℕ := 5

/-- Modelled from the spec: access mode ALL = STATE | SET | GET. -/
def eaALL : ℕ := 7

/-- Modelled from the spec: the maximum-interval value this repository uses to
disable periodic reporting while still allowing change-triggered reports
(the value the symbolic name MAX resolves to). -/
def disablePeriodicReporting : ℤ := 65000

/-- The symbolic reporting-time table (`timeLookup` in modernExtend.ts);
`none` for a string that is not a key of the object literal. -/
def timeLookup : String → Option ℤ
  | "MAX" => some 65000
  | "1_HOUR" => some 3600
  | "30_MINUTES" => some 1800
  | "1_MINUTE" => some 60
  | "10_SECONDS" => some 10
  | "MIN" => some 0
  | _ => none

/-- The keys of `timeLookup`, in declaration order. -/
def timeLookupKeys : List String := ["MAX", "1_HOUR", "30_MINUTES", "1_MINUTE", "10_SECONDS", "MIN"]

/-- `ReportingConfigTime = number | keyof typeof timeLookup`; strings outside
the table are representable because the runtime check in
`convertReportingConfigTime` is what the spec claims about. -/
inductive ReportingConfigTime where
  | num (z : ℤ)
  | sym (s : String)
deriving DecidableEq, Repr

/-- `convertReportingConfigTime`: a string is looked up in `timeLookup`
(unknown key throws), a number passes through unchanged. -/
def convertReportingConfigTime : ReportingConfigTime → Except String ℤ
  | .sym s =>
    match timeLookup s with
    | some v => .ok v
    | none => .error "Reporting time is unknown"
  | .num z => .ok z

/-- `ReportingConfigWithoutAttribute`: min/max interval and change threshold. -/
structure ReportingConfigWithoutAttribute where
  min : ReportingConfigTime
  max : ReportingConfigTime
  change : ℤ
deriving DecidableEq, Repr

/-- The data captured by the `configure` closure that
`setupConfigureForReporting` returns (the closure itself only performs
protocol I/O when later invoked with a device). -/
structure ConfiguratorData where
  cluster : String
  attr : String
  configureReporting : Bool
  read : Bool
  endpointNames : Option (List String)
deriving Repr

/-- `setupConfigureForReporting`: builds the configurator exactly when a
reporting config is declared (`!!config`) or the access mode includes GET;
otherwise returns `undefined` (here `none`). -/
def setupConfigureForReporting (cluster attr : String)
    (config : Option ReportingConfigWithoutAttribute) (access : ℕ)
    (endpointNames : Option (List String) := none) : Option ConfiguratorData :=
  let configureReporting := config.isSome
  let read := access &&& eaGET != 0
  if configureReporting || read then
    some { cluster, attr, configureReporting, read, endpointNames }
  else
    none

theorem timeLookup_mem_keys (s : String) (v : ℤ) (h : timeLookup s = some v) :
    s ∈ timeLookupKeys ∧ 0 ≤ v := by
  unfold timeLookup at h
  split at h <;> simp_all [timeLookupKeys] <;> omega

/-- C6: symbolic reporting-time resolution is total and deterministic on the
known names, each resolving to a non-negative number of seconds, with MIN ↦ 0
and MAX ↦ the periodic-reporting-disable value; numbers pass through
unchanged; any unknown string yields a configuration error, not a default. -/
theorem convertReportingConfigTime_spec :
    (∀ s v, timeLookup s = some v →
      convertReportingConfigTime (.sym s) = .ok v ∧ 0 ≤ v)
    ∧ convertReportingConfigTime (.sym "MIN") = .ok 0
    ∧ convertReportingConfigTime (.sym "MAX") = .ok disablePeriodicReporting
    ∧ (∀ z : ℤ, convertReportingConfigTime (.num z) = .ok z)
    ∧ (∀ s, timeLookup s = none →
        convertReportingConfigTime (.sym s) = .error "Reporting time is unknown") := by
  refine ⟨fun s v h => ⟨?_, (timeLookup_mem_keys s v h).2⟩, by rfl, by rfl, fun z => rfl, ?_⟩
  · simp [convertReportingConfigTime, h]
  · intro s h
    simp [convertReportingConfigTime, h]

/-- Witness for C6 at concrete inputs: the known name 1_HOUR resolves to 3600. -/
theorem convertReportingConfigTime_spec_witness :
    convertReportingConfigTime (.sym "1_HOUR") = .ok 3600 ∧ (0:ℤ) ≤ 3600 ∧
    convertReportingConfigTime (.sym "bogus") = .error "Reporting time is unknown" := by
  refine ⟨(convertReportingConfigTime_spec.1 "1_HOUR" 3600 (by rfl)).1, by norm_num, ?_⟩
  exact convertReportingConfigTime_spec.2.2.2.2 "bogus" (by rfl)

/-- Rounding an integer-valued rational is the identity. -/
theorem jsRound_intCast (z : ℤ) : jsRound (z : ℚ) = z := by
  unfold jsRound
  rw [Int.floor_eq_iff]
  constructor <;> [push_cast; push_cast] <;> linarith

/-- `precisionRound` is the identity on values already representable with
`p` decimal digits. -/
theorem precisionRound_eq_self (q : ℚ) (p : ℕ) (k : ℤ) (h : q * 10 ^ p = (k : ℚ)) :
    precisionRound q p = q := by
  unfold precisionRound
  rw [h, jsRound_intCast, ← h]
  field_simp

/-- C7: the configurator exists (is `some`) exactly when a reporting spec is
declared or the access mode includes GET; otherwise no configurator value is
produced at all, so composites can use its mere existence as the signal. -/
theorem setupConfigureForReporting_existence (cluster attr : String)
    (config : Option ReportingConfigWithoutAttribute) (access : ℕ)
    (endpointNames : Option (List String)) :
    (setupConfigureForReporting cluster attr config access endpointNames).isSome
      ↔ (config.isSome = true ∨ access &&& eaGET ≠ 0) := by
  unfold setupConfigureForReporting
  by_cases hc : config.isSome <;> by_cases hr : access &&& eaGET = 0 <;>
    simp [hc, hr]

/-! ## Battery composite (`battery` in modernExtend.ts)

The fromZigbee converter for cluster genPowerCfg builds one payload object
from up to three attributes; each source if-block becomes one function
threading the payload through. -/

/-- The genPowerCfg attributes a battery message may carry (`msg.data`);
`none` models an absent key. -/
structure PowerCfgData where
  batteryPercentageRemaining : Option ℕ := none
  batteryVoltage : Option ℕ := none
  batteryAlarmState : Option ℕ := none

/-- The persisted device metadata consulted by the battery decoder
(`model.meta.battery`). The voltage-to-percentage table lives in utils.ts
(outside src/), so its derivation is an abstract function of the decoded
voltage payload field; `none` means the metadata key is absent. -/
structure BatteryDeviceMeta where
  dontDividePercentage : Bool := false
  voltageToPercentage : Option (Option ℕ → ℚ) := none

/-- The `battery()` builder arguments relevant to decoding, with their
source defaults. -/
structure BatteryArgs where
  percentage : Bool := true
  voltage : Bool := false
  lowStatus : Bool := false
deriving DecidableEq, Repr

/-- The payload object of the battery converter; `none` = key never assigned. -/
structure BatteryPayload where
  battery : Option ℚ := none
  voltage : Option ℕ := none
  battery_low : Option Bool := none

/-- First if-block: `batteryPercentageRemaining` present and `< 255` (255 is
the not-reported sentinel); halve unless `dontDividePercentage`, round to two
digits, assign when the percentage capability is enabled. -/
def batteryPercentageBlock (args : BatteryArgs) (meta : BatteryDeviceMeta)
    (data : PowerCfgData) (payload : BatteryPayload) : BatteryPayload :=
  match data.batteryPercentageRemaining with
  | some raw =>
    if raw < 255 then
      let percentage : ℚ := if meta.dontDividePercentage then (raw : ℚ) else (raw : ℚ) / 2
      if args.percentage then { payload with battery := some (precisionRound percentage 2) }
      else payload
    else payload
  | none => payload

/-- Second if-block: `batteryVoltage` present and `< 255`; centivolts × 100 to
millivolts, then the optional voltage-to-percentage derivation overwrites the
battery key when the metadata declares it. -/
def batteryVoltageBlock (args : BatteryArgs) (meta : BatteryDeviceMeta)
    (data : PowerCfgData) (payload : BatteryPayload) : BatteryPayload :=
  match data.batteryVoltage with
  | some raw =>
    if raw < 255 then
      let payload := if args.voltage then { payload with voltage := some (raw * 100) }
        else payload
      match meta.voltageToPercentage with
      | some f => { payload with battery := some (f payload.voltage) }
      | none => payload
    else payload
  | none => payload

/-- `battery1Low` of the source: JavaScript `(x & 1<<0 || x & 1<<1 || x & 1<<2
|| x & 1<<3) > 0`, i.e. true exactly when one of bits 0-3 is set. -/
def battery1Low (x : ℕ) : Bool :=
  (x &&& (1 <<< 0) != 0) || (x &&& (1 <<< 1) != 0) || (x &&& (1 <<< 2) != 0) ||
    (x &&& (1 <<< 3) != 0)

/-- `battery2Low`: bits 10-13. -/
def battery2Low (x : ℕ) : Bool :=
  (x &&& (1 <<< 10) != 0) || (x &&& (1 <<< 11) != 0) || (x &&& (1 <<< 12) != 0) ||
    (x &&& (1 <<< 13) != 0)

/-- `battery3Low`: bits 20-23. -/
def battery3Low (x : ℕ) : Bool :=
  (x &&& (1 <<< 20) != 0) || (x &&& (1 <<< 21) != 0) || (x &&& (1 <<< 22) != 0) ||
    (x &&& (1 <<< 23) != 0)

/-- Third if-block: `batteryAlarmState` present; the three slot ORs are
computed and `battery_low` assigned when the low-status capability is enabled. -/
def batteryAlarmBlock (args : BatteryArgs) (data : PowerCfgData)
    (payload : BatteryPayload) : BatteryPayload :=
  match data.batteryAlarmState with
  | some x =>
    if args.lowStatus then
      { payload with battery_low := some (battery1Low x || battery2Low x || battery3Low x) }
    else payload
  | none => payload

/-- The whole battery fromZigbee convert: the three if-blocks in source order
applied to the initially empty payload object. -/
def batteryConvert (args : BatteryArgs) (meta : BatteryDeviceMeta)
    (data : PowerCfgData) : BatteryPayload :=
  batteryAlarmBlock args data (batteryVoltageBlock args meta data
    (batteryPercentageBlock args meta data {}))

theorem batteryVoltageBlock_battery (args : BatteryArgs) (meta : BatteryDeviceMeta)
    (data : PowerCfgData) (payload : BatteryPayload)
    (hv : meta.voltageToPercentage = none) :
    (batteryVoltageBlock args meta data payload).battery = payload.battery := by
  unfold batteryVoltageBlock
  cases data.batteryVoltage <;> simp [hv]
  split
  · split <;> rfl
  · rfl

theorem batteryAlarmBlock_battery (args : BatteryArgs) (data : PowerCfgData)
    (payload : BatteryPayload) :
    (batteryAlarmBlock args data payload).battery = payload.battery := by
  unfold batteryAlarmBlock
  cases data.batteryAlarmState <;> simp
  split <;> rfl

theorem batteryPercentageBlock_battery_low (args : BatteryArgs) (meta : BatteryDeviceMeta)
    (data : PowerCfgData) (payload : BatteryPayload) :
    (batteryPercentageBlock args meta data payload).battery_low = payload.battery_low := by
  unfold batteryPercentageBlock
  cases data.batteryPercentageRemaining <;> simp
  split
  · split <;> rfl
  · rfl

theorem batteryVoltageBlock_battery_low (args : BatteryArgs) (meta : BatteryDeviceMeta)
    (data : PowerCfgData) (payload : BatteryPayload) :
    (batteryVoltageBlock args meta data payload).battery_low = payload.battery_low := by
  unfold batteryVoltageBlock
  cases data.batteryVoltage <;> simp
  split
  · split <;> split <;> rfl
  · rfl

/-- C4: for every message carrying the remaining-percentage attribute (and a
device without the voltage-derived override), raw 255 gives no percentage
update; below the sentinel, the default emits half the raw value and the
`dontDividePercentage` override emits the raw value unchanged. -/
theorem battery_percentage_decode (args : BatteryArgs) (meta : BatteryDeviceMeta)
    (data : PowerCfgData) (raw : ℕ)
    (hp : args.percentage = true) (hv : meta.voltageToPercentage = none)
    (hr : data.batteryPercentageRemaining = some raw) :
    (raw = 255 → (batteryConvert args meta data).battery = none)
    ∧ (raw < 255 → meta.dontDividePercentage = false →
        (batteryConvert args meta data).battery = some ((raw : ℚ) / 2))
    ∧ (raw < 255 → meta.dontDividePercentage = true →
        (batteryConvert args meta data).battery = some (raw : ℚ)) := by
  have hbase : ∀ payload, (batteryConvert args meta data).battery
      = (batteryPercentageBlock args meta data payload).battery →
      (batteryConvert args meta data).battery
        = (batteryPercentageBlock args meta data payload).battery := fun _ h => h
  unfold batteryConvert
  rw [batteryAlarmBlock_battery, batteryVoltageBlock_battery args meta data _ hv]
  unfold batteryPercentageBlock
  rw [hr]
  refine ⟨fun h255 => ?_, fun hlt hdd => ?_, fun hlt hdd => ?_⟩
  · simp [h255]
  · have : precisionRound ((raw : ℚ) / 2) 2 = (raw : ℚ) / 2 :=
      precisionRound_eq_self _ 2 ((raw : ℤ) * 50) (by push_cast; ring)
    simp [hlt, hdd, hp, this]
  · have : precisionRound ((raw : ℚ)) 2 = (raw : ℚ) :=
      precisionRound_eq_self _ 2 ((raw : ℤ) * 100) (by push_cast; ring)
    simp [hlt, hdd, hp, this]

/-- Witness for C4: raw 200 with halving enabled decodes to 100 percent, and
raw 255 produces no battery key. -/
theorem battery_percentage_decode_witness :
    (batteryConvert {} {} { batteryPercentageRemaining := some 200 }).battery
      = some ((200 : ℚ) / 2)
    ∧ ((200 : ℚ) / 2 = 100)
    ∧ (batteryConvert {} {} { batteryPercentageRemaining := some 255 }).battery = none := by
  refine ⟨(battery_percentage_decode {} {} { batteryPercentageRemaining := some 200 } 200
      rfl rfl rfl).2.1 (by norm_num) rfl, by norm_num,
    (battery_percentage_decode {} {} { batteryPercentageRemaining := some 255 } 255
      rfl rfl rfl).1 rfl⟩

theorem and_shiftLeft_bne_eq_testBit (x k : ℕ) : (x &&& (1 <<< k) != 0) = x.testBit k := by
  rw [Nat.shiftLeft_eq, one_mul, Nat.and_two_pow]
  cases h : x.testBit k <;> simp [h]

/-- C5: with low-status enabled, the battery-alarm bitmask decodes to a single
boolean that is true exactly when at least one of bits 0-3, 10-13, 20-23 of
the raw bitmask is set. -/
theorem battery_low_bitmask (args : BatteryArgs) (meta : BatteryDeviceMeta)
    (data : PowerCfgData) (x : ℕ)
    (hl : args.lowStatus = true) (ha : data.batteryAlarmState = some x) :
    (batteryConvert args meta data).battery_low
      = some (battery1Low x || battery2Low x || battery3Low x)
    ∧ ((battery1Low x || battery2Low x || battery3Low x) = true
        ↔ ∃ k ∈ ([0, 1, 2, 3, 10, 11, 12, 13, 20, 21, 22, 23] : List ℕ), x.testBit k) := by
  constructor
  · unfold batteryConvert
    have h1 := batteryPercentageBlock_battery_low args meta data {}
    have h2 := batteryVoltageBlock_battery_low args meta data
      (batteryPercentageBlock args meta data {})
    unfold batteryAlarmBlock
    rw [ha]
    simp [hl]
  · simp only [battery1Low, battery2Low, battery3Low, and_shiftLeft_bne_eq_testBit,
      Bool.or_eq_true, List.mem_cons]
    constructor
    · rintro (((((h | h) | h) | h) | (((h | h) | h) | h)) | (((h | h) | h) | h)) <;>
        exact ⟨_, by simp, h⟩
    · rintro ⟨k, hk, hbit⟩
      simp only [List.mem_cons, List.not_mem_nil, or_false] at hk
      rcases hk with rfl | rfl | rfl | rfl | rfl | rfl | rfl | rfl | rfl | rfl | rfl | rfl <;>
        simp [hbit]

/-- Witness for C5: bitmask 1 (only bit 0) decodes to `battery_low = true`;
bitmask with bits 10 and 21 decodes to true; bitmask with only irrelevant bits
(bit 4) decodes to false. -/
theorem battery_low_bitmask_witness :
    (batteryConvert { lowStatus := true } {} { batteryAlarmState := some 1 }).battery_low
      = some true
    ∧ (batteryConvert { lowStatus := true } {}
        { batteryAlarmState := some (2 ^ 10 + 2 ^ 21) }).battery_low = some true
    ∧ (batteryConvert { lowStatus := true } {}
        { batteryAlarmState := some (2 ^ 4) }).battery_low = some false := by
  refine ⟨?_, ?_, ?_⟩
  · rw [(battery_low_bitmask { lowStatus := true } {} { batteryAlarmState := some 1 } 1
      rfl rfl).1]
    decide
  · rw [(battery_low_bitmask { lowStatus := true } {}
      { batteryAlarmState := some (2 ^ 10 + 2 ^ 21) } (2 ^ 10 + 2 ^ 21) rfl rfl).1]
    decide
  · rw [(battery_low_bitmask { lowStatus := true } {} { batteryAlarmState := some (2 ^ 4) }
      (2 ^ 4) rfl rfl).1]
    decide

/-! ## Numeric generic builder (`numeric` in modernExtend.ts) -/

/-- Direction tag of a `ScaleFunction` (`'from' | 'to'`). -/
inductive ScaleDirection where
  | fromDevice
  | toDevice

/-- `scale?: number | ScaleFunction`: a constant divisor or a direction-aware
function. -/
inductive ScaleSpec where
  | const (d : ℚ)
  | fn (f : ℚ → ScaleDirection → ℚ)

/-- Decode-side scale application: `value / scale` for a constant,
`scale(value, 'from')` for a function, identity when no scale is configured. -/
def applyScaleFrom : Option ScaleSpec → ℚ → ℚ
  | none, v => v
  | some (.const d), v => v / d
  | some (.fn f), v => f v .fromDevice

/-- The value transform of the numeric fromZigbee convert: scale on the
`'from'` direction, then the optional precision rounding. -/
def numericDecodeValue (scale : Option ScaleSpec) (precision : Option ℕ) (raw : ℚ) : ℚ :=
  let value := applyScaleFrom scale raw
  match precision with
  | some p => precisionRound value p
  | none => value

/-- The wire-payload transform of the numeric toZigbee convertSet, exactly as
the source computes it: `payloadValue` is the scaled value, but the precision
line reads `precisionRound(value, precision)` — the unscaled `value` — so with
a precision configured the scaled `payloadValue` is discarded. -/
def numericEncodePayload (scale : Option ScaleSpec) (precision : Option ℕ) (value : ℚ) : ℚ :=
  let payloadValue := value
  let payloadValue :=
    match scale with
    | none => payloadValue
    | some (.const d) => payloadValue * d
    | some (.fn f) => f payloadValue .toDevice
  match precision with
  | some p => precisionRound value p
  | none => payloadValue

/-- C2 (defect evaluated at the failing input): with constant divisor 10 and
precision 2, encoding v = 1 puts 1 on the wire (the scaled value 10 computed
by `payloadValue * scale` is overwritten by `precisionRound(value, precision)`),
and decoding that wire value yields 1/10, not v: the scale round-trip claimed
by the spec fails on the code. -/
theorem numeric_scale_roundtrip_code_bug :
    numericEncodePayload (some (.const 10)) (some 2) 1 = 1
    ∧ numericEncodePayload (some (.const 10)) none 1 = 10
    ∧ numericDecodeValue (some (.const 10)) (some 2)
        (numericEncodePayload (some (.const 10)) (some 2) 1) = 1 / 10
    ∧ ((1 : ℚ) / 10) ≠ 1 := by
  refine ⟨?_, ?_, ?_, by norm_num⟩ <;>
    norm_num [numericEncodePayload, numericDecodeValue, applyScaleFrom, precisionRound, jsRound]

/-- A numeric capability descriptor as far as decode routing needs it:
the state key (`property`) and the optional endpoint qualifier. -/
structure NumericExpose where
  property : String
  endpoint : Option String
deriving DecidableEq, Repr

/-- Modelled from the spec: an endpoint-qualified descriptor exposes the
endpoint-suffixed property name (`withEndpoint`; exposes.ts is outside src/). -/
def exposeProperty (name : String) : Option String → String
  | some ep => name ++ "_" ++ ep
  | none => name

/-- `createExpose` of the numeric builder, reduced to the routing-relevant
fields. -/
def createExpose (name : String) (endpoint : Option String) : NumericExpose :=
  { property := exposeProperty name endpoint, endpoint }

/-- Descriptor construction of the numeric builder: one unqualified descriptor
when no endpoints are given or the list is exactly the single default
endpoint "1" (`noEndpoint`), else one qualified descriptor per endpoint. -/
def numericExposes (name : String) (endpoints : Option (List String)) : List NumericExpose :=
  match endpoints with
  | none => [createExpose name none]
  | some eps =>
    if eps.length = 1 ∧ eps.head? = some "1" then [createExpose name none]
    else eps.map fun ep => createExpose name (some ep)

/-- An inbound attribute-report / read-response message as the numeric decoder
consumes it: the attribute map (`msg.data`, `none` = key absent; raw values on
this path are numeric, `assertNumber` aside) and the message endpoint name
(`getEndpointName`). -/
structure ZclMessage where
  data : String → Option ℚ
  endpointName : String

/-- The numeric fromZigbee convert: absent attribute is a no-op; with endpoint
qualifiers, a message whose endpoint matches none of them is a no-op;
otherwise scale/precision translate the raw value and the state update is
emitted under the property of the matching descriptor. -/
def numericConvert (name attrKey : String) (endpoints : Option (List String))
    (scale : Option ScaleSpec) (precision : Option ℕ) (msg : ZclMessage) :
    Option (String × ℚ) :=
  match msg.data attrKey with
  | none => none
  | some raw =>
    let endpoint := endpoints.bind fun eps => eps.find? fun e => msg.endpointName == e
    if endpoints.isSome ∧ endpoint = none then none
    else
      let value := numericDecodeValue scale precision raw
      let exposes := numericExposes name endpoints
      let expose :=
        if exposes.length = 1 then exposes.head?
        else exposes.find? fun e => e.endpoint == endpoint
      expose.map fun e2 => (e2.property, value)

theorem string_append_cancel_left (s a b : String) (h : s ++ a = s ++ b) : a = b := by
  have hd := congrArg String.data h
  simp only [String.data_append] at hd
  exact String.ext (List.append_cancel_left hd)

theorem find?_beq_self_of_mem (A : String) (eps : List String) (h : A ∈ eps) :
    eps.find? (fun e => A == e) = some A := by
  induction eps with
  | nil => simp at h
  | cons e rest ih =>
    rcases List.mem_cons.1 h with rfl | hm
    · simp [List.find?]
    · by_cases he : A == e
      · have : A = e := by simpa using he
        subst this; simp [List.find?]
      · simp [List.find?, he, ih hm]

theorem find?_createExpose_of_mem (name A : String) (eps : List String) (h : A ∈ eps) :
    (eps.map fun ep => createExpose name (some ep)).find?
        (fun e => e.endpoint == some A) = some (createExpose name (some A)) := by
  induction eps with
  | nil => simp at h
  | cons e rest ih =>
    by_cases he : e = A
    · subst he; simp [List.find?, createExpose]
    · have hm : A ∈ rest := by
        rcases List.mem_cons.1 h with rfl | hm
        · exact absurd rfl he
        · exact hm
      have hne : ((createExpose name (some e)).endpoint == some A) = false := by
        simp [createExpose, he]
      simp [List.find?, hne, ih hm]

/-- C8: numeric decode routing. An absent attribute is a no-op; an endpoint
list that the message endpoint matches none of is a no-op; a matching message
updates exactly the property of the matching endpoint-qualified descriptor
(the endpoint-suffixed name), and distinct endpoints have distinct properties. -/
theorem numericConvert_routing (name attrKey : String)
    (scale : Option ScaleSpec) (precision : Option ℕ) :
    (∀ endpoints msg, msg.data attrKey = none →
      numericConvert name attrKey endpoints scale precision msg = none)
    ∧ (∀ eps msg, msg.endpointName ∉ eps →
      numericConvert name attrKey (some eps) scale precision msg = none)
    ∧ (∀ eps msg raw, ¬(eps.length = 1 ∧ eps.head? = some "1") →
      msg.endpointName ∈ eps → msg.data attrKey = some raw →
      numericConvert name attrKey (some eps) scale precision msg
        = some (name ++ "_" ++ msg.endpointName, numericDecodeValue scale precision raw))
    ∧ (∀ A B : String, A ≠ B → name ++ "_" ++ A ≠ name ++ "_" ++ B) := by
  refine ⟨?_, ?_, ?_, ?_⟩
  · intro endpoints msg hdata
    unfold numericConvert
    rw [hdata]
  · intro eps msg hmem
    unfold numericConvert
    cases hdata : msg.data attrKey with
    | none => rfl
    | some raw =>
      have hfind : eps.find? (fun e => msg.endpointName == e) = none := by
        rw [List.find?_eq_none]
        intro e he hbeq
        exact hmem (by simpa using (beq_iff_eq.mp hbeq) ▸ he)
      simp [hfind]
  · intro eps msg raw hno hmem hdata
    unfold numericConvert
    rw [hdata]
    have hfind := find?_beq_self_of_mem msg.endpointName eps hmem
    simp only [Option.bind_eq_bind, Option.some_bind, hfind, Option.isSome_some,
      reduceCtorEq, and_false, if_false]
    simp only [numericExposes]
    rw [if_neg hno]
    by_cases hlen : (eps.map fun ep => createExpose name (some ep)).length = 1
    · rw [if_pos hlen]
      rw [List.length_map] at hlen
      match eps, hlen with
      | [e0], _ =>
        have : msg.endpointName = e0 := by simpa using hmem
        subst this
        simp [createExpose, exposeProperty]
    · rw [if_neg hlen, find?_createExpose_of_mem name msg.endpointName eps hmem]
      simp [createExpose, exposeProperty]
  · intro A B hAB h
    exact hAB (string_append_cancel_left (name ++ "_") A B h)

/-- Witness for C8: attribute present on endpoint l1 of the pair l1/l2 updates
exactly `power_l1`; the same message shape with endpoint l3 is a no-op; an
absent attribute is a no-op. -/
theorem numericConvert_routing_witness :
    numericConvert "power" "activePower" (some ["l1", "l2"]) none none
        { data := fun a => if a = "activePower" then some 10 else none, endpointName := "l1" }
      = some ("power_l1", 10)
    ∧ numericConvert "power" "activePower" (some ["l1", "l2"]) none none
        { data := fun a => if a = "activePower" then some 10 else none, endpointName := "l3" }
      = none
    ∧ numericConvert "power" "activePower" (some ["l1", "l2"]) none none
        { data := fun _ => none, endpointName := "l1" } = none := by
  refine ⟨?_, ?_, ?_⟩
  · have h := (numericConvert_routing "power" "activePower" none none).2.2.1
      ["l1", "l2"]
      { data := fun a => if a = "activePower" then some 10 else none, endpointName := "l1" }
      10 (by simp) (by simp) (by simp)
    simpa [numericDecodeValue, applyScaleFrom] using h
  · exact (numericConvert_routing "power" "activePower" none none).2.1
      ["l1", "l2"] _ (by simp)
  · exact (numericConvert_routing "power" "activePower" none none).1
      (some ["l1", "l2"]) _ rfl

/-! ## Electricity-meter composite (`electricityMeter` in modernExtend.ts)

The builder is a pure function: the `configure` closure it returns is
modelled as the data it captures (`configureLookup`), and the protocol I/O
(bind, read, write, subscribe) driven by that data only happens when the
configurator is later invoked against a device. Hence an error thrown by the
builder precedes any I/O. -/

/-- `MultiplierDivisor`: caller-forced constants; both fields optional. -/
structure MultiplierDivisor where
  multiplier : Option ℕ := none
  divisor : Option ℕ := none
deriving DecidableEq, Repr

/-- A per-quantity argument of `electricityMeter`: absent (default behaviour),
`false` (drop the quantity), or a forced multiplier/divisor object. -/
inductive MeterQuantityArg where
  | unset
  | disabled
  | forced (md : MultiplierDivisor)
deriving DecidableEq, Repr

/-- `isObject(arg)`: true exactly for a forced multiplier/divisor object. -/
def MeterQuantityArg.isObject : MeterQuantityArg → Bool
  | .forced _ => true
  | _ => false

/-- Optional chaining `arg?.divisor`. -/
def MeterQuantityArg.divisorQ : MeterQuantityArg → Option ℕ
  | .forced md => md.divisor
  | _ => none

/-- Optional chaining `arg?.multiplier`. -/
def MeterQuantityArg.multiplierQ : MeterQuantityArg → Option ℕ
  | .forced md => md.multiplier
  | _ => none

/-- `cluster?: 'both' | 'metering' | 'electrical'`. -/
inductive MeterCluster where
  | both
  | metering
  | electrical
deriving DecidableEq, Repr

/-- `ElectricityMeterArgs` with the source default `cluster: 'both'`. -/
structure ElectricityMeterArgs where
  cluster : MeterCluster := .both
  current : MeterQuantityArg := .unset
  power : MeterQuantityArg := .unset
  voltage : MeterQuantityArg := .unset
  energy : MeterQuantityArg := .unset
deriving DecidableEq, Repr

/-- One quantity entry of `configureLookup`: reported attribute, the cluster
attributes naming divisor and multiplier, the forced constants if any, and
the nominal reportable change. -/
structure MeterProperty where
  attr : String
  divisor : String
  multiplier : String
  forced : MeterQuantityArg
  change : ℚ
deriving DecidableEq, Repr

/-- The `haElectricalMeasurement` entry of `configureLookup`; a `none` field
models a deleted property. -/
structure HaElectricalProps where
  power : Option MeterProperty
  current : Option MeterProperty
  voltage : Option MeterProperty
deriving DecidableEq, Repr

/-- The `seMetering` entry of `configureLookup`. -/
structure SeMeteringProps where
  power : Option MeterProperty
  energy : Option MeterProperty
deriving DecidableEq, Repr

/-- `configureLookup`; a `none` cluster models a deleted cluster entry. -/
structure MeterConfigureLookup where
  haElectricalMeasurement : Option HaElectricalProps
  seMetering : Option SeMeteringProps
deriving DecidableEq, Repr

/-- The bundle `electricityMeter` returns: exposed capability names, the
names of the from/to converters, and the configure data. -/
structure MeterBundle where
  exposes : List String
  fromZigbee : List String
  toZigbee : List String
  configureLookup : MeterConfigureLookup
deriving DecidableEq, Repr

/-- `electricityMeter`: the divisor/multiplier-mismatch guard runs first and
throws synchronously; otherwise the bundle for the selected cluster mode is
assembled (with the per-quantity `delete` statements applied). -/
def electricityMeter (args : ElectricityMeterArgs) : Except String MeterBundle :=
  if args.cluster = .metering ∧ args.power.isObject ∧ args.energy.isObject ∧
      (args.power.divisorQ ≠ args.energy.divisorQ ∨
        args.power.multiplierQ ≠ args.energy.multiplierQ) then
    .error "When cluster is metering, power and energy divisor and multiplier should be equal"
  else
    let ha : HaElectricalProps :=
      { power := some { attr := "activePower", divisor := "acPowerDivisor",
                        multiplier := "acPowerMultiplier", forced := args.power, change := 5 },
        current := some { attr := "rmsCurrent", divisor := "acCurrentDivisor",
                          multiplier := "acCurrentMultiplier", forced := args.current,
                          change := 0.05 },
        voltage := some { attr := "rmsVoltage", divisor := "acVoltageDivisor",
                          multiplier := "acVoltageMultiplier", forced := args.voltage,
                          change := 5 } }
    let se : SeMeteringProps :=
      { power := some { attr := "instantaneousDemand", divisor := "divisor",
                        multiplier := "multiplier", forced := args.power, change := 5 },
        energy := some { attr := "currentSummDelivered", divisor := "divisor",
                         multiplier := "multiplier", forced := args.energy, change := 0.1 } }
    let ha := if args.power = .disabled then { ha with power := none } else ha
    let se := if args.power = .disabled then { se with power := none } else se
    let ha := if args.voltage = .disabled then { ha with voltage := none } else ha
    let ha := if args.current = .disabled then { ha with current := none } else ha
    let se := if args.energy = .disabled then { se with energy := none } else se
    match args.cluster with
    | .both => .ok
      { exposes := ["power", "voltage", "current", "energy"],
        fromZigbee := ["electrical_measurement", "metering"],
        toZigbee := ["electrical_measurement_power", "acvoltage", "accurrent",
          "currentsummdelivered"],
        configureLookup := { haElectricalMeasurement := some ha,
                             seMetering := some { se with power := none } } }
    | .metering => .ok
      { exposes := ["power", "energy"],
        fromZigbee := ["metering"],
        toZigbee := ["metering_power", "currentsummdelivered"],
        configureLookup := { haElectricalMeasurement := none, seMetering := some se } }
    | .electrical => .ok
      { exposes := ["power", "voltage", "current"],
        fromZigbee := ["electrical_measurement"],
        toZigbee := ["electrical_measurement_power", "acvoltage", "accurrent"],
        configureLookup := { haElectricalMeasurement := some ha, seMetering := none } }

/-- C1: with cluster 'metering' and both power and energy divisor/multiplier
forced, building the extension raises the configuration error exactly when the
pairs differ, and succeeds (no error) when they match. The builder is pure:
its configure step is returned as data, so the error is raised at build time,
before any bind/read/write/subscribe could run. -/
theorem electricityMeter_metering_guard (p e : MultiplierDivisor) :
    (p.divisor ≠ e.divisor ∨ p.multiplier ≠ e.multiplier →
      electricityMeter { cluster := .metering, power := .forced p, energy := .forced e }
        = .error
          "When cluster is metering, power and energy divisor and multiplier should be equal")
    ∧ (p.divisor = e.divisor → p.multiplier = e.multiplier →
      ∃ bundle,
        electricityMeter { cluster := .metering, power := .forced p, energy := .forced e }
          = .ok bundle ∧ bundle.exposes = ["power", "energy"]) := by
  constructor
  · intro hne
    rcases hne with h | h <;>
      simp [electricityMeter, MeterQuantityArg.isObject, MeterQuantityArg.divisorQ,
        MeterQuantityArg.multiplierQ, h]
  · intro hd hm
    simp only [electricityMeter, MeterQuantityArg.isObject, MeterQuantityArg.divisorQ,
      MeterQuantityArg.multiplierQ, hd, hm, ne_eq, not_true_eq_false, false_or, or_self,
      and_false, if_false]
    exact ⟨_, rfl, rfl⟩

/-- Witness for C1: power divisor 10 / multiplier 1 against energy divisor 5 /
multiplier 1 errors at build time; the matching pair builds a bundle. -/
theorem electricityMeter_metering_guard_witness :
    electricityMeter
        { cluster := .metering,
          power := .forced { multiplier := some 1, divisor := some 10 },
          energy := .forced { multiplier := some 1, divisor := some 5 } }
      = .error
        "When cluster is metering, power and energy divisor and multiplier should be equal"
    ∧ ∃ bundle,
        electricityMeter
            { cluster := .metering,
              power := .forced { multiplier := some 1, divisor := some 10 },
              energy := .forced { multiplier := some 1, divisor := some 10 } }
          = .ok bundle ∧ bundle.exposes = ["power", "energy"] := by
  constructor
  · exact (electricityMeter_metering_guard { multiplier := some 1, divisor := some 10 }
      { multiplier := some 1, divisor := some 5 }).1 (.inl (by simp))
  · exact (electricityMeter_metering_guard { multiplier := some 1, divisor := some 10 }
      { multiplier := some 1, divisor := some 10 }).2 rfl rfl

/-! ## IAS security-zone composite (`iasZoneAlarm` in modernExtend.ts) -/

/-- `iasZoneType`. -/
inductive IasZoneType where
  | occupancy
  | contact
  | smoke
  | water_leak
  | carbon_monoxide
  | sos
  | vibration
  | alarm
  | gas
  | generic
deriving DecidableEq, Fintype, Repr

/-- `iasZoneAttribute`. -/
inductive IasZoneAttribute where
  | alarm_1
  | alarm_2
  | tamper
  | battery_low
  | supervision_reports
  | restore_reports
  | ac_status
  | test
  | battery_defect
deriving DecidableEq, Fintype, Repr

/-- The string of a zone type (the key used in `exposeList` and in the
composed capability names). -/
def IasZoneType.str : IasZoneType → String
  | .occupancy => "occupancy"
  | .contact => "contact"
  | .smoke => "smoke"
  | .water_leak => "water_leak"
  | .carbon_monoxide => "carbon_monoxide"
  | .sos => "sos"
  | .vibration => "vibration"
  | .alarm => "alarm"
  | .gas => "gas"
  | .generic => "generic"

/-- A binary capability descriptor of the zone composite, reduced to the
fields the claims are about: exposed name and description. -/
structure IasExpose where
  name : String
  description : String
deriving DecidableEq, Repr

/-- The zone-type-keyed entries of `exposeList`. The source object has no
`generic` key and the builder never indexes it with the generic type, so that
case maps to a placeholder entry. -/
def exposeListZone : IasZoneType → IasExpose
  | .occupancy => ⟨"occupancy", "Indicates whether the device detected occupancy"⟩
  | .contact => ⟨"contact", "Indicates whether the device is opened or closed"⟩
  | .smoke => ⟨"smoke", "Indicates whether the device detected smoke"⟩
  | .water_leak => ⟨"water_leak", "Indicates whether the device detected a water leak"⟩
  | .carbon_monoxide => ⟨"carbon_monoxide",
      "Indicates whether the device detected carbon monoxide"⟩
  | .sos => ⟨"sos", "Indicates whether the SOS alarm is triggered"⟩
  | .vibration => ⟨"vibration", "Indicates whether the device detected vibration"⟩
  | .alarm => ⟨"alarm", "Indicates whether the alarm is triggered"⟩
  | .gas => ⟨"gas", "Indicates whether the device detected gas"⟩
  | .generic => ⟨"generic", ""⟩

/-- The attribute-keyed entries of `exposeList`. -/
def exposeListAttr : IasZoneAttribute → IasExpose
  | .alarm_1 => ⟨"alarm_1", "Indicates whether IAS Zone alarm 1 is active"⟩
  | .alarm_2 => ⟨"alarm_2", "Indicates whether IAS Zone alarm 2 is active"⟩
  | .tamper => ⟨"tamper", "Indicates whether the device is tampered"⟩
  | .battery_low =>
      ⟨"battery_low", "Indicates whether the battery of the device is almost empty"⟩
  | .supervision_reports =>
      ⟨"supervision_reports",
        "Indicates whether the device issues reports on zone operational status"⟩
  | .restore_reports =>
      ⟨"restore_reports",
        "Indicates whether the device issues reports on alarm no longer being present"⟩
  | .ac_status =>
      ⟨"ac_status", "Indicates whether the device mains voltage supply is at fault"⟩
  | .test => ⟨"test", "Indicates whether the device is currently performing a test"⟩
  | .battery_defect => ⟨"battery_defect", "Indicates whether the device battery is defective"⟩

/-- `bothAlarms`: both alarm attributes are requested. -/
def bothAlarms (zoneAttributes : List IasZoneAttribute) : Bool :=
  zoneAttributes.contains .alarm_1 && zoneAttributes.contains .alarm_2

/-- The exposes pushed by `iasZoneAlarm`: the generic type maps each requested
attribute; a non-generic type pushes either two renamed alarm capabilities
(both alarms requested) or the single zone-type capability, then the
non-alarm attributes. -/
def iasZoneExposes (zoneType : IasZoneType)
    (zoneAttributes : List IasZoneAttribute) : List IasExpose :=
  match zoneType with
  | .generic => zoneAttributes.map exposeListAttr
  | zt =>
    let alarms :=
      if bothAlarms zoneAttributes then
        [⟨zt.str ++ "_alarm_1", (exposeListZone zt).description ++ " (alarm_1)"⟩,
         ⟨zt.str ++ "_alarm_2", (exposeListZone zt).description ++ " (alarm_2)"⟩]
      else [exposeListZone zt]
    alarms ++
      (zoneAttributes.filter fun a => !(a == .alarm_1) && !(a == .alarm_2)).map exposeListAttr

/-- The `alarm1Name`/`alarm2Name` pair the decoder publishes under: defaults
`alarm_1`/`alarm_2` (generic keeps them); a non-generic type renames both to
distinct suffixed names when both alarms are requested, and otherwise aliases
both to the bare zone-type name. -/
def iasAlarmNames (zoneType : IasZoneType)
    (zoneAttributes : List IasZoneAttribute) : String × String :=
  match zoneType with
  | .generic => ("alarm_1", "alarm_2")
  | zt =>
    if bothAlarms zoneAttributes then (zt.str ++ "_alarm_1", zt.str ++ "_alarm_2")
    else (zt.str, zt.str)

theorem iasZoneExposes_nongeneric (zt : IasZoneType) (attrs : List IasZoneAttribute)
    (hg : zt ≠ .generic) :
    iasZoneExposes zt attrs
      = (if bothAlarms attrs then
          [⟨zt.str ++ "_alarm_1", (exposeListZone zt).description ++ " (alarm_1)"⟩,
           ⟨zt.str ++ "_alarm_2", (exposeListZone zt).description ++ " (alarm_2)"⟩]
         else [exposeListZone zt])
        ++ (attrs.filter fun a => !(a == .alarm_1) && !(a == .alarm_2)).map exposeListAttr := by
  cases zt <;> first | exact absurd rfl hg | rfl

theorem exposeListAttr_name_ne (zt : IasZoneType) (hg : zt ≠ .generic)
    (a : IasZoneAttribute) :
    (exposeListAttr a).name ≠ zt.str
    ∧ (exposeListAttr a).name ≠ zt.str ++ "_alarm_1"
    ∧ (exposeListAttr a).name ≠ zt.str ++ "_alarm_2" := by
  revert hg
  revert a zt
  decide

theorem iasZone_names_distinct (zt : IasZoneType) :
    zt.str ++ "_alarm_1" ≠ zt.str ++ "_alarm_2"
    ∧ zt.str ≠ zt.str ++ "_alarm_1" ∧ zt.str ≠ zt.str ++ "_alarm_2" := by
  revert zt
  decide

theorem exposeListZone_name (zt : IasZoneType) : (exposeListZone zt).name = zt.str := by
  cases zt <;> rfl

/-- C9: a non-generic zone with both alarm-1 and alarm-2 requested exposes two
distinct capabilities named `<zoneType>_alarm_1` and `<zoneType>_alarm_2`,
with distinct descriptions; with exactly one of the two alarms requested it
exposes a single capability named after the zone type, and no
`<zoneType>_alarm_k` capability exists. -/
theorem iasZone_alarm_exposes (zt : IasZoneType) (attrs : List IasZoneAttribute)
    (hg : zt ≠ .generic) :
    (attrs.contains .alarm_1 = true → attrs.contains .alarm_2 = true →
      (iasZoneExposes zt attrs).take 2
        = [⟨zt.str ++ "_alarm_1", (exposeListZone zt).description ++ " (alarm_1)"⟩,
           ⟨zt.str ++ "_alarm_2", (exposeListZone zt).description ++ " (alarm_2)"⟩]
      ∧ zt.str ++ "_alarm_1" ≠ zt.str ++ "_alarm_2"
      ∧ (exposeListZone zt).description ++ " (alarm_1)"
          ≠ (exposeListZone zt).description ++ " (alarm_2)")
    ∧ (attrs.contains .alarm_1 ≠ attrs.contains .alarm_2 →
      ((iasZoneExposes zt attrs).head? = some (exposeListZone zt)
      ∧ (exposeListZone zt).name = zt.str
      ∧ ((iasZoneExposes zt attrs).filter fun ex => ex.name == zt.str).length = 1
      ∧ ∀ ex ∈ iasZoneExposes zt attrs,
          ex.name ≠ zt.str ++ "_alarm_1" ∧ ex.name ≠ zt.str ++ "_alarm_2")) := by
  constructor
  · intro h1 h2
    have hb : bothAlarms attrs = true := by
      unfold bothAlarms
      rw [h1, h2]
      rfl
    rw [iasZoneExposes_nongeneric zt attrs hg, if_pos hb]
    refine ⟨rfl, (iasZone_names_distinct zt).1, fun hd => ?_⟩
    have := string_append_cancel_left _ _ _ hd
    simp at this
  · intro hx
    have hb : bothAlarms attrs = false := by
      cases hc1 : attrs.contains .alarm_1 <;> cases hc2 : attrs.contains .alarm_2 <;>
        simp_all [bothAlarms]
    rw [iasZoneExposes_nongeneric zt attrs hg, if_neg (by simp [hb])]
    refine ⟨rfl, exposeListZone_name zt, ?_, ?_⟩
    · rw [List.filter_append]
      have hz : (([exposeListZone zt] : List IasExpose).filter fun ex =>
          ex.name == zt.str) = [exposeListZone zt] := by
        simp [List.filter, exposeListZone_name zt]
      have hrest : (((attrs.filter fun a => !(a == .alarm_1) && !(a == .alarm_2)).map
          exposeListAttr).filter fun ex => ex.name == zt.str) = [] := by
        rw [List.filter_eq_nil_iff]
        intro ex hex
        rcases List.mem_map.1 hex with ⟨a, _, rfl⟩
        simp [(exposeListAttr_name_ne zt hg a).1]
      rw [hz, hrest]
      rfl
    · intro ex hex
      rcases List.mem_append.1 hex with hm | hm
      · rcases List.mem_singleton.1 hm with rfl
        rw [exposeListZone_name zt]
        exact ⟨(iasZone_names_distinct zt).2.1, (iasZone_names_distinct zt).2.2⟩
      · rcases List.mem_map.1 hm with ⟨a, _, rfl⟩
        exact ⟨(exposeListAttr_name_ne zt hg a).2.1, (exposeListAttr_name_ne zt hg a).2.2⟩

/-- Witness for C9: smoke with both alarms gives `smoke_alarm_1` and
`smoke_alarm_2`; smoke with only alarm-1 gives the single `smoke` capability. -/
theorem iasZone_alarm_exposes_witness :
    (iasZoneExposes .smoke [.alarm_1, .alarm_2]).take 2
      = [⟨"smoke_alarm_1", "Indicates whether the device detected smoke (alarm_1)"⟩,
         ⟨"smoke_alarm_2", "Indicates whether the device detected smoke (alarm_2)"⟩]
    ∧ (iasZoneExposes .smoke [.alarm_1, .tamper]).head?
        = some ⟨"smoke", "Indicates whether the device detected smoke"⟩
    ∧ (∀ ex ∈ iasZoneExposes .smoke [.alarm_1, .tamper],
        ex.name ≠ "smoke_alarm_1" ∧ ex.name ≠ "smoke_alarm_2") := by
  refine ⟨?_, ?_, ?_⟩
  · exact ((iasZone_alarm_exposes .smoke [.alarm_1, .alarm_2] (by decide)).1
      (by decide) (by decide)).1
  · exact ((iasZone_alarm_exposes .smoke [.alarm_1, .tamper] (by decide)).2 (by decide)).1
  · exact ((iasZone_alarm_exposes .smoke [.alarm_1, .tamper] (by decide)).2 (by decide)).2.2.2

/-- The state object the zone decoder returns for a qualifying message, as
the ordered bindings of the source object literal (a later binding of the
same computed key overwrites an earlier one). -/
def iasConvertState (alarm1Name alarm2Name : String) (zoneStatus : ℕ) :
    List (String × Bool) :=
  [(alarm1Name, zoneStatus &&& 1 != 0),
   (alarm2Name, zoneStatus &&& (1 <<< 1) != 0),
   ("tamper", zoneStatus &&& (1 <<< 2) != 0),
   ("battery_low", zoneStatus &&& (1 <<< 3) != 0),
   ("supervision_reports", zoneStatus &&& (1 <<< 4) != 0),
   ("restore_reports", zoneStatus &&& (1 <<< 5) != 0),
   ("trouble", zoneStatus &&& (1 <<< 6) != 0),
   ("ac_status", zoneStatus &&& (1 <<< 7) != 0),
   ("test", zoneStatus &&& (1 <<< 8) != 0),
   ("battery_defect", zoneStatus &&& (1 <<< 9) != 0)]

/-- JavaScript object lookup over ordered bindings: the last binding of a key
wins. -/
def objGet (l : List (String × Bool)) (k : String) : Option Bool :=
  l.foldl (fun acc kv => if kv.1 = k then some kv.2 else acc) none

/-- The distinct keys of the object built from the ordered bindings. -/
def objKeys (l : List (String × Bool)) : List String := (l.map Prod.fst).dedup

theorem and_one_bne_eq_testBit (x : ℕ) : (x &&& 1 != 0) = x.testBit 0 := by
  have h := and_shiftLeft_bne_eq_testBit x 0
  simpa using h

/-- C10 (counterexample): configured for zone type smoke with only alarm-1
requested, both alarm names are the single key `smoke`; on zone status 1
(alarm-1 bit set, alarm-2 bit clear) the returned object has nine distinct
keys, not ten, and its only alarm entry holds the alarm-2 bit value `false`
even though the alarm-1 bit is set. -/
theorem iasConvertState_ten_flags_counterexample :
    iasAlarmNames .smoke [.alarm_1] = ("smoke", "smoke")
    ∧ (objKeys (iasConvertState "smoke" "smoke" 1)).length = 9
    ∧ objGet (iasConvertState "smoke" "smoke" 1) "smoke" = some false
    ∧ Nat.testBit 1 0 = true := by
  decide

/-- The eight fixed literal keys of the zone decoder's state object. -/
def iasFixedKeys : List String :=
  ["tamper", "battery_low", "supervision_reports", "restore_reports", "trouble",
   "ac_status", "test", "battery_defect"]

theorem iasConvertState_distinct_lookup (a1 a2 : String) (z : ℕ)
    (h12 : a1 ≠ a2) (ha1 : a1 ∉ iasFixedKeys) (ha2 : a2 ∉ iasFixedKeys) :
    (objKeys (iasConvertState a1 a2 z)).length = 10
    ∧ objGet (iasConvertState a1 a2 z) a1 = some (z.testBit 0)
    ∧ objGet (iasConvertState a1 a2 z) a2 = some (z.testBit 1)
    ∧ objGet (iasConvertState a1 a2 z) "tamper" = some (z.testBit 2)
    ∧ objGet (iasConvertState a1 a2 z) "battery_low" = some (z.testBit 3)
    ∧ objGet (iasConvertState a1 a2 z) "supervision_reports" = some (z.testBit 4)
    ∧ objGet (iasConvertState a1 a2 z) "restore_reports" = some (z.testBit 5)
    ∧ objGet (iasConvertState a1 a2 z) "trouble" = some (z.testBit 6)
    ∧ objGet (iasConvertState a1 a2 z) "ac_status" = some (z.testBit 7)
    ∧ objGet (iasConvertState a1 a2 z) "test" = some (z.testBit 8)
    ∧ objGet (iasConvertState a1 a2 z) "battery_defect" = some (z.testBit 9) := by
  simp only [iasFixedKeys, List.mem_cons, List.not_mem_nil, not_or, or_false] at ha1 ha2
  obtain ⟨b1, b2, b3, b4, b5, b6, b7, b8⟩ := ha1
  obtain ⟨c1, c2, c3, c4, c5, c6, c7, c8⟩ := ha2
  refine ⟨?_, ?_, ?_, ?_, ?_, ?_, ?_, ?_, ?_, ?_, ?_⟩
  · have hnd : ([a1, a2, "tamper", "battery_low", "supervision_reports", "restore_reports",
        "trouble", "ac_status", "test", "battery_defect"] : List String).Nodup := by
      simp only [List.nodup_cons, List.mem_cons, List.not_mem_nil, not_or, or_false]
      refine ⟨⟨h12, b1, b2, b3, b4, b5, b6, b7, b8⟩, ⟨c1, c2, c3, c4, c5, c6, c7, c8⟩, ?_⟩
      decide
    have hmap : (iasConvertState a1 a2 z).map Prod.fst
        = [a1, a2, "tamper", "battery_low", "supervision_reports", "restore_reports",
           "trouble", "ac_status", "test", "battery_defect"] := rfl
    rw [objKeys, hmap, List.Nodup.dedup hnd]
    rfl
  · rw [← and_one_bne_eq_testBit]
    simp [objGet, iasConvertState, List.foldl, Ne.symm h12, Ne.symm b1, Ne.symm b2,
      Ne.symm b3, Ne.symm b4, Ne.symm b5, Ne.symm b6, Ne.symm b7, Ne.symm b8]
  · rw [← and_shiftLeft_bne_eq_testBit]
    simp [objGet, iasConvertState, List.foldl, Ne.symm c1, Ne.symm c2, Ne.symm c3,
      Ne.symm c4, Ne.symm c5, Ne.symm c6, Ne.symm c7, Ne.symm c8]
  · rw [← and_shiftLeft_bne_eq_testBit]
    simp [objGet, iasConvertState, List.foldl, b1, c1]
  · rw [← and_shiftLeft_bne_eq_testBit]
    simp [objGet, iasConvertState, List.foldl, b2, c2]
  · rw [← and_shiftLeft_bne_eq_testBit]
    simp [objGet, iasConvertState, List.foldl, b3, c3]
  · rw [← and_shiftLeft_bne_eq_testBit]
    simp [objGet, iasConvertState, List.foldl, b4, c4]
  · rw [← and_shiftLeft_bne_eq_testBit]
    simp [objGet, iasConvertState, List.foldl, b5, c5]
  · rw [← and_shiftLeft_bne_eq_testBit]
    simp [objGet, iasConvertState, List.foldl, b6, c6]
  · rw [← and_shiftLeft_bne_eq_testBit]
    simp [objGet, iasConvertState, List.foldl, b7, c7]
  · rw [← and_shiftLeft_bne_eq_testBit]
    simp [objGet, iasConvertState, List.foldl, b8, c8]

theorem iasZone_suffixed_not_fixed (zt : IasZoneType) :
    zt.str ++ "_alarm_1" ∉ iasFixedKeys ∧ zt.str ++ "_alarm_2" ∉ iasFixedKeys := by
  revert zt
  decide

theorem iasAlarmNames_distinct_config (zt : IasZoneType) (attrs : List IasZoneAttribute)
    (h : zt = .generic ∨ (zt ≠ .generic ∧ bothAlarms attrs = true)) :
    (iasAlarmNames zt attrs).1 ≠ (iasAlarmNames zt attrs).2
    ∧ (iasAlarmNames zt attrs).1 ∉ iasFixedKeys
    ∧ (iasAlarmNames zt attrs).2 ∉ iasFixedKeys := by
  rcases h with rfl | ⟨hg, hb⟩
  · refine ⟨?_, ?_, ?_⟩
    · show ("alarm_1" : String) ≠ "alarm_2"
      decide
    · show ("alarm_1" : String) ∉ iasFixedKeys
      decide
    · show ("alarm_2" : String) ∉ iasFixedKeys
      decide
  · have hn : iasAlarmNames zt attrs = (zt.str ++ "_alarm_1", zt.str ++ "_alarm_2") := by
      cases zt <;> first | exact absurd rfl hg | simp [iasAlarmNames, hb]
    rw [hn]
    exact ⟨(iasZone_names_distinct zt).1, (iasZone_suffixed_not_fixed zt).1,
      (iasZone_suffixed_not_fixed zt).2⟩

/-- C10 (amended): whenever the decoder's two alarm keys are distinct — the
generic zone type (which keeps `alarm_1`/`alarm_2`), or a non-generic zone
with both alarms requested — every qualifying zone-status message yields a
state object with exactly ten distinct keys, each boolean derived from its
fixed bit (0-9) of the status word, including the flags whose attributes were
not requested and have no exposed descriptor. (With a non-generic zone and at
most one alarm requested the two alarm bindings share a single key, so only
nine keys remain and the shared key carries the alarm-2 bit: see the
counterexample.) -/
theorem iasConvertState_ten_flags (zt : IasZoneType) (attrs : List IasZoneAttribute)
    (h : zt = .generic ∨ (zt ≠ .generic ∧ bothAlarms attrs = true)) (z : ℕ) :
    (objKeys (iasConvertState (iasAlarmNames zt attrs).1 (iasAlarmNames zt attrs).2 z)).length
      = 10
    ∧ objGet (iasConvertState (iasAlarmNames zt attrs).1 (iasAlarmNames zt attrs).2 z)
        (iasAlarmNames zt attrs).1 = some (z.testBit 0)
    ∧ objGet (iasConvertState (iasAlarmNames zt attrs).1 (iasAlarmNames zt attrs).2 z)
        (iasAlarmNames zt attrs).2 = some (z.testBit 1)
    ∧ objGet (iasConvertState (iasAlarmNames zt attrs).1 (iasAlarmNames zt attrs).2 z)
        "tamper" = some (z.testBit 2)
    ∧ objGet (iasConvertState (iasAlarmNames zt attrs).1 (iasAlarmNames zt attrs).2 z)
        "battery_low" = some (z.testBit 3)
    ∧ objGet (iasConvertState (iasAlarmNames zt attrs).1 (iasAlarmNames zt attrs).2 z)
        "supervision_reports" = some (z.testBit 4)
    ∧ objGet (iasConvertState (iasAlarmNames zt attrs).1 (iasAlarmNames zt attrs).2 z)
        "restore_reports" = some (z.testBit 5)
    ∧ objGet (iasConvertState (iasAlarmNames zt attrs).1 (iasAlarmNames zt attrs).2 z)
        "trouble" = some (z.testBit 6)
    ∧ objGet (iasConvertState (iasAlarmNames zt attrs).1 (iasAlarmNames zt attrs).2 z)
        "ac_status" = some (z.testBit 7)
    ∧ objGet (iasConvertState (iasAlarmNames zt attrs).1 (iasAlarmNames zt attrs).2 z)
        "test" = some (z.testBit 8)
    ∧ objGet (iasConvertState (iasAlarmNames zt attrs).1 (iasAlarmNames zt attrs).2 z)
        "battery_defect" = some (z.testBit 9) := by
  obtain ⟨h12, h1, h2⟩ := iasAlarmNames_distinct_config zt attrs h
  exact iasConvertState_distinct_lookup _ _ z h12 h1 h2

/-- Witness for C10 (amended) at the generic zone type and status word 5:
ten keys, `alarm_1` reads bit 0 = true, `alarm_2` reads bit 1 = false,
`tamper` reads bit 2 = true. -/
theorem iasConvertState_ten_flags_witness :
    (objKeys (iasConvertState "alarm_1" "alarm_2" 5)).length = 10
    ∧ objGet (iasConvertState "alarm_1" "alarm_2" 5) "alarm_1" = some (Nat.testBit 5 0)
    ∧ objGet (iasConvertState "alarm_1" "alarm_2" 5) "alarm_2" = some (Nat.testBit 5 1)
    ∧ objGet (iasConvertState "alarm_1" "alarm_2" 5) "tamper" = some (Nat.testBit 5 2)
    ∧ Nat.testBit 5 0 = true ∧ Nat.testBit 5 1 = false ∧ Nat.testBit 5 2 = true := by
  have h := iasConvertState_ten_flags .generic [] (Or.inl rfl) 5
  exact ⟨h.1, h.2.1, h.2.2.1, h.2.2.2.1, by decide, by decide, by decide⟩

/-! ## Transient-state timer of the zone decoder (`alarmTimeout` path)

The timeout block of the decoder runs once per qualifying message:
`clearTimeout(globalStore.getValue(msg.endpoint, 'timer'))`, then, when the
resolved timeout is nonzero, `setTimeout` of a callback publishing both alarm
names false `timeout * 1000` ms later, stored back with
`globalStore.putValue(msg.endpoint, 'timer', timer)`. The embedding keeps the
set of live (scheduled, not yet fired or cleared) timers explicitly, so that
"at most one pending timer per endpoint" is a theorem about the behaviour and
not an artefact of the model. -/

/-- A live `setTimeout` timer: its handle, the endpoint of the message that
scheduled it, its absolute fire time (ms), and the state update its callback
publishes on firing. -/
structure PendingTimer where
  id : ℕ
  endpoint : ℕ
  fireAt : ℕ
  payload : List (String × Bool)
deriving DecidableEq, Repr

/-- The timer environment: live timers, the per-endpoint `globalStore` slot
with the last stored handle, and the next fresh handle. -/
structure TimerEnv where
  timers : List PendingTimer
  store : ℕ → Option ℕ
  nextId : ℕ

/-- The environment before any message: no timers, empty store. -/
def TimerEnv.initial : TimerEnv := { timers := [], store := fun _ => none, nextId := 0 }

/-- `clearTimeout(handle)`: removes the timer with the given handle; an absent
or stale handle is a no-op, as in JavaScript. -/
def clearTimeout (timers : List PendingTimer) (handle : Option ℕ) : List PendingTimer :=
  timers.filter fun t => !(some t.id == handle)

/-- One qualifying message on endpoint `ep` at time `now` (ms) with resolved
timeout `T` (s): clear the stored timer, then schedule and store a fresh one
unless the timeout is zero. -/
def iasProcessMessage (T : ℕ) (alarm1Name alarm2Name : String) (ep now : ℕ)
    (env : TimerEnv) : TimerEnv :=
  let timers := clearTimeout env.timers (env.store ep)
  if T ≠ 0 then
    { timers := timers ++ [{ id := env.nextId, endpoint := ep, fireAt := now + T * 1000,
                             payload := [(alarm1Name, false), (alarm2Name, false)] }],
      store := fun e => if e = ep then some env.nextId else env.store e,
      nextId := env.nextId + 1 }
  else
    { timers := timers, store := env.store, nextId := env.nextId }

/-- A sequence of qualifying messages (endpoint, arrival time in ms),
processed in order. -/
def iasRun (T : ℕ) (a1 a2 : String) (events : List (ℕ × ℕ)) (env : TimerEnv) : TimerEnv :=
  events.foldl (fun env ev => iasProcessMessage T a1 a2 ev.1 ev.2 env) env

/-- The live timers belonging to an endpoint. -/
def pendingFor (ep : ℕ) (env : TimerEnv) : List PendingTimer :=
  env.timers.filter fun t => t.endpoint == ep

/-- Well-formedness the decoder maintains: every live timer is recorded in
its endpoint's store slot; store slots hold handles below the fresh counter;
distinct endpoints hold distinct handles; and no two live timers share an
endpoint. -/
structure TimerInv (env : TimerEnv) : Prop where
  timer_store : ∀ t ∈ env.timers, env.store t.endpoint = some t.id
  store_lt : ∀ e i, env.store e = some i → i < env.nextId
  store_inj : ∀ e f i, env.store e = some i → env.store f = some i → e = f
  ep_pairwise : env.timers.Pairwise fun s t => s.endpoint ≠ t.endpoint

theorem timerInv_initial : TimerInv .initial := by
  refine ⟨?_, ?_, ?_, ?_⟩ <;> simp [TimerEnv.initial]

theorem mem_clearTimeout {timers : List PendingTimer} {handle : Option ℕ}
    {t : PendingTimer} (h : t ∈ clearTimeout timers handle) :
    t ∈ timers ∧ some t.id ≠ handle := by
  have := List.mem_filter.1 h
  refine ⟨this.1, ?_⟩
  simpa using this.2

/-- After the clear step, no timer of the message endpoint survives. -/
theorem clearTimeout_own_endpoint (env : TimerEnv) (hinv : TimerInv env) (ep : ℕ)
    {t : PendingTimer} (h : t ∈ clearTimeout env.timers (env.store ep)) :
    t.endpoint ≠ ep := by
  intro hep
  rcases mem_clearTimeout h with ⟨hmem, hne⟩
  exact hne (by rw [← hinv.timer_store t hmem, hep])

theorem timerInv_step (T : ℕ) (a1 a2 : String) (ep now : ℕ) (env : TimerEnv)
    (hinv : TimerInv env) : TimerInv (iasProcessMessage T a1 a2 ep now env) := by
  unfold iasProcessMessage
  by_cases hT : T ≠ 0
  · rw [if_pos hT]
    refine ⟨?_, ?_, ?_, ?_⟩ <;> dsimp only
    · intro t ht
      rcases List.mem_append.1 ht with hs | hnew
      · have hne := clearTimeout_own_endpoint env hinv ep hs
        rw [if_neg hne]
        exact hinv.timer_store t (mem_clearTimeout hs).1
      · rcases List.mem_singleton.1 hnew with rfl
        simp
    · intro e i hi
      by_cases he : e = ep
      · subst he
        rw [if_pos rfl] at hi
        have hii := Option.some.inj hi
        omega
      · rw [if_neg he] at hi
        exact Nat.lt_succ_of_lt (hinv.store_lt e i hi)
    · intro e f i he hf
      by_cases h1 : e = ep <;> by_cases h2 : f = ep
      · rw [h1, h2]
      · subst h1
        rw [if_pos rfl] at he
        rw [if_neg h2] at hf
        have hii := Option.some.inj he
        subst hii
        exact absurd (hinv.store_lt f _ hf) (lt_irrefl _)
      · subst h2
        rw [if_neg h1] at he
        rw [if_pos rfl] at hf
        have hii := Option.some.inj hf
        subst hii
        exact absurd (hinv.store_lt e _ he) (lt_irrefl _)
      · rw [if_neg h1] at he
        rw [if_neg h2] at hf
        exact hinv.store_inj e f i he hf
    · rw [List.pairwise_append]
      refine ⟨List.Pairwise.filter _ hinv.ep_pairwise, List.pairwise_singleton _ _, ?_⟩
      intro s hs t ht
      rcases List.mem_singleton.1 ht with rfl
      exact clearTimeout_own_endpoint env hinv ep hs
  · rw [if_neg hT]
    refine ⟨?_, ?_, ?_, ?_⟩ <;> dsimp only
    · intro t ht
      exact hinv.timer_store t (mem_clearTimeout ht).1
    · exact hinv.store_lt
    · exact hinv.store_inj
    · exact List.Pairwise.filter _ hinv.ep_pairwise

theorem timerInv_run (T : ℕ) (a1 a2 : String) (events : List (ℕ × ℕ)) (env : TimerEnv)
    (hinv : TimerInv env) : TimerInv (iasRun T a1 a2 events env) := by
  induction events generalizing env with
  | nil => exact hinv
  | cons ev rest ih =>
    exact ih _ (timerInv_step T a1 a2 ev.1 ev.2 env hinv)

/-- A message on `ep` with nonzero timeout leaves exactly one pending timer
for `ep`: the fresh one, firing `T` seconds later with both alarms cleared. -/
theorem pendingFor_step_same (T : ℕ) (a1 a2 : String) (ep now : ℕ) (env : TimerEnv)
    (hinv : TimerInv env) (hT : T ≠ 0) :
    pendingFor ep (iasProcessMessage T a1 a2 ep now env)
      = [{ id := env.nextId, endpoint := ep, fireAt := now + T * 1000,
           payload := [(a1, false), (a2, false)] }] := by
  unfold pendingFor iasProcessMessage
  rw [if_pos hT]
  simp only [List.filter_append]
  have h1 : (clearTimeout env.timers (env.store ep)).filter (fun t => t.endpoint == ep)
      = [] := by
    rw [List.filter_eq_nil_iff]
    intro t ht hbeq
    exact clearTimeout_own_endpoint env hinv ep ht (by simpa using hbeq)
  rw [h1]
  simp

/-- A message on another endpoint does not disturb `ep`'s pending timer. -/
theorem pendingFor_step_other (T : ℕ) (a1 a2 : String) (ep ep2 now : ℕ) (env : TimerEnv)
    (hinv : TimerInv env) (hne : ep2 ≠ ep) :
    pendingFor ep (iasProcessMessage T a1 a2 ep2 now env) = pendingFor ep env := by
  have hclear : (clearTimeout env.timers (env.store ep2)).filter (fun t => t.endpoint == ep)
      = env.timers.filter fun t => t.endpoint == ep := by
    unfold clearTimeout
    rw [List.filter_filter]
    apply List.filter_congr
    intro t ht
    by_cases hep : t.endpoint = ep
    · have hstore := hinv.timer_store t ht
      have hkeep : (some t.id == env.store ep2) = false := by
        rw [beq_eq_false_iff_ne]
        intro hcontra
        exact hne ((hinv.store_inj ep2 t.endpoint t.id hcontra.symm hstore).trans hep)
      rw [hkeep]
      simp
    · simp [hep]
  unfold pendingFor iasProcessMessage
  by_cases hT : T ≠ 0
  · rw [if_pos hT]
    simp only [List.filter_append]
    rw [hclear]
    have hnew : (([{ id := env.nextId, endpoint := ep2, fireAt := now + T * 1000,
                     payload := [(a1, false), (a2, false)] }] : List PendingTimer).filter
          fun t => t.endpoint == ep) = [] := by
      simp [hne]
    rw [hnew, List.append_nil]
  · simp only [if_neg hT]
    exact hclear

theorem pendingFor_run_other (T : ℕ) (a1 a2 : String) (ep : ℕ)
    (events : List (ℕ × ℕ)) (env : TimerEnv) (hinv : TimerInv env)
    (hall : ∀ ev ∈ events, ev.1 ≠ ep) :
    pendingFor ep (iasRun T a1 a2 events env) = pendingFor ep env := by
  induction events generalizing env with
  | nil => rfl
  | cons ev rest ih =>
    have hstep := pendingFor_step_other T a1 a2 ep ev.1 ev.2 env hinv
      (hall ev (List.mem_cons_self ev rest))
    have hinv2 := timerInv_step T a1 a2 ev.1 ev.2 env hinv
    calc pendingFor ep (iasRun T a1 a2 (ev :: rest) env)
        = pendingFor ep (iasRun T a1 a2 rest (iasProcessMessage T a1 a2 ev.1 ev.2 env)) := rfl
      _ = pendingFor ep (iasProcessMessage T a1 a2 ev.1 ev.2 env) :=
          ih _ hinv2 fun e he => hall e (List.mem_cons_of_mem ev he)
      _ = pendingFor ep env := hstep

theorem pairwise_filter_length_le_one {α : Type} (p : α → Bool) (R : α → α → Prop)
    (l : List α) (hpw : l.Pairwise R)
    (hex : ∀ a b, p a = true → p b = true → R a b → False) :
    (l.filter p).length ≤ 1 := by
  induction l with
  | nil => simp
  | cons a rest ih =>
    rcases List.pairwise_cons.1 hpw with ⟨hhead, htail⟩
    by_cases hpa : p a = true
    · have hnil : rest.filter p = [] := by
        rw [List.filter_eq_nil_iff]
        intro b hb hpb
        exact hex a b hpa hpb (hhead b hb)
      simp [hpa, hnil]
    · simp only [List.filter_cons, hpa]
      simpa using ih htail

/-- With timeout zero no timer is ever scheduled. -/
theorem iasRun_zero_timers (a1 a2 : String) (events : List (ℕ × ℕ)) (env : TimerEnv)
    (h : env.timers = []) : (iasRun 0 a1 a2 events env).timers = [] := by
  induction events generalizing env with
  | nil => exact h
  | cons ev rest ih =>
    apply ih
    simp [iasProcessMessage, clearTimeout, h]

/-- C3: the security-zone decoder's clear-timer discipline. Starting from no
timers: (i) after any sequence of qualifying messages at most one timer is
pending per endpoint; (ii) with timeout `T ≠ 0`, after a sequence whose last
message on `ep` arrives at time `t`, exactly one timer is pending for `ep`,
firing `T` seconds (`T * 1000` ms) after that message with the state update
that publishes both alarm keys false; (iii) with `T = 0` no timer is ever
pending. -/
theorem iasZoneAlarm_timer_spec (T : ℕ) (a1 a2 : String) (ep : ℕ) :
    (∀ events e2, (pendingFor e2 (iasRun T a1 a2 events .initial)).length ≤ 1)
    ∧ (T ≠ 0 → ∀ pre t post, (∀ ev ∈ post, ev.1 ≠ ep) →
        (pendingFor ep (iasRun T a1 a2 (pre ++ (ep, t) :: post) .initial)).map
            (fun tm => (tm.fireAt, tm.payload))
          = [(t + T * 1000, [(a1, false), (a2, false)])])
    ∧ (T = 0 → ∀ events, pendingFor ep (iasRun T a1 a2 events .initial) = []) := by
  refine ⟨?_, ?_, ?_⟩
  · intro events e2
    have hinv := timerInv_run T a1 a2 events .initial timerInv_initial
    exact pairwise_filter_length_le_one _ _ _ hinv.ep_pairwise
      (fun s u hs hu hR => hR (by
        have hs2 : s.endpoint = e2 := by simpa using hs
        have hu2 : u.endpoint = e2 := by simpa using hu
        rw [hs2, hu2]))
  · intro hT pre t post hpost
    have hpre := timerInv_run T a1 a2 pre .initial timerInv_initial
    have hsplit : iasRun T a1 a2 (pre ++ (ep, t) :: post) .initial
        = iasRun T a1 a2 post
            (iasProcessMessage T a1 a2 ep t (iasRun T a1 a2 pre .initial)) := by
      unfold iasRun
      rw [List.foldl_append]
      rfl
    rw [hsplit, pendingFor_run_other T a1 a2 ep post _
      (timerInv_step T a1 a2 ep t _ hpre) hpost,
      pendingFor_step_same T a1 a2 ep t _ hpre hT]
    rfl
  · intro hT events
    subst hT
    unfold pendingFor
    rw [iasRun_zero_timers a1 a2 events .initial rfl]
    rfl

/-- Witness for C3: two qualifying messages on endpoint 1, 10 ms apart, with
the default 90 s timeout leave exactly one pending clear, firing 90 s after
the second message (at 90010 ms) with both alarms forced false. -/
theorem iasZoneAlarm_timer_spec_witness :
    (pendingFor 1 (iasRun 90 "alarm_1" "alarm_2" [(1, 0), (1, 10)] .initial)).map
        (fun tm => (tm.fireAt, tm.payload))
      = [(10 + 90 * 1000, [("alarm_1", false), ("alarm_2", false)])]
    ∧ 10 + 90 * 1000 = 90010
    ∧ pendingFor 1 (iasRun 0 "alarm_1" "alarm_2" [(1, 0), (1, 10)] .initial) = [] := by
  refine ⟨?_, by norm_num, ?_⟩
  · exact (iasZoneAlarm_timer_spec 90 "alarm_1" "alarm_2" 1).2.1 (by norm_num)
      [(1, 0)] 10 [] (by simp)
  · exact (iasZoneAlarm_timer_spec 0 "alarm_1" "alarm_2" 1).2.2 rfl [(1, 0), (1, 10)]

end ModernExtend
